import Mathlib

/-!
Verification development for the ku.ac.th web crawler (src/webcrawler.py).

The scheduler core of the crawler is embedded shallowly: the mutable
attributes of the WebCrawler class become the fields of the Crawler
structure, and each method that the claims depend on becomes a Lean
function on Crawler.  External collaborators (the HTTP transport, the
HTML link extractor, the URL canonicalizer, robots.txt parsing, the
page store and wall-clock time) are modelled as oracle inputs to each
crawl-loop iteration: the fetch outcome of an attempt, the parsed
robots decision, and the current time are parameters, never computed.

Python dictionaries keyed by netloc are modelled as functions
String -> Option V (absent key = none); Python sets as Finset String;
time.time() as a natural number supplied by the oracle.
-/

/-! ## Dictionary model -/

/-- A Python dict keyed by strings: total function into Option. -/
def Dict (V : Type) : Type := String → Option V

/-- d[k] = v assignment. -/
def Dict.set {V : Type} (d : Dict V) (k : String) (v : V) : Dict V :=
  fun x => if x = k then some v else d x

/-- d.get(k, a): lookup with default. -/
def Dict.getD {V : Type} (d : Dict V) (k : String) (a : V) : V :=
  (d k).getD a

/-- The empty dict. -/
def Dict.empty {V : Type} : Dict V := fun _ => none

/-- k in d membership test. -/
def Dict.mem {V : Type} (d : Dict V) (k : String) : Bool :=
  (d k).isSome

/-- Initialize a key to a value when absent (the Python idiom
    if k not in d: d[k] = v). -/
def Dict.init {V : Type} (d : Dict V) (k : String) (v : V) : Dict V :=
  if (d k).isSome then d else d.set k v

/-! ## URL splitting

The source calls urllib.parse.urlsplit; the crawler uses the scheme,
netloc and path components.  We embed the CPython splitting algorithm
for absolute URLs: an optional scheme terminated by the first colon
(valid scheme characters only, lower-cased), a netloc after a leading
double slash running up to the next slash, question mark or hash, then
the fragment after the first hash, then the query after the first
question mark; the rest is the path. -/

/-- Characters allowed in a URL scheme after the first letter. -/
def schemeChar (c : Char) : Bool :=
  c.isAlphanum || c = '+' || c = '-' || c = '.'

/-- Split a character list at the first occurrence of a separator,
    dropping the separator; none when the separator is absent. -/
def splitAtFirst (sep : Char) : List Char → Option (List Char × List Char)
  | [] => none
  | c :: cs =>
    if c = sep then some ([], cs)
    else (splitAtFirst sep cs).map (fun p => (c :: p.1, p.2))

/-- Take characters up to (excluding) the first delimiter from the
    given set, returning the prefix and the remainder including the
    delimiter. -/
def takeUntilAny (delims : List Char) : List Char → List Char × List Char
  | [] => ([], [])
  | c :: cs =>
    if c ∈ delims then ([], c :: cs)
    else
      let p := takeUntilAny delims cs
      (c :: p.1, p.2)

/-- The components of a split URL. -/
structure UrlParts where
  scheme : String
  netloc : String
  path : String
  query : String
  fragment : String
deriving DecidableEq, Repr

/-- urllib.parse.urlsplit, restricted to the behavior the crawler
    relies on. -/
def urlsplit (url : String) : UrlParts :=
  let cs := url.toList
  let schemeRest : List Char × List Char :=
    match splitAtFirst ':' cs with
    | some (before, after) =>
      match before with
      | [] => ([], cs)
      | c0 :: rest =>
        if c0.isAlpha && rest.all schemeChar && schemeChar c0 then
          ((c0 :: rest).map Char.toLower, after)
        else ([], cs)
    | none => ([], cs)
  let scheme := schemeRest.1
  let rest0 := schemeRest.2
  let netlocRest : List Char × List Char :=
    match rest0 with
    | '/' :: '/' :: tail => takeUntilAny ['/', '?', '#'] tail
    | _ => ([], rest0)
  let netloc := netlocRest.1
  let rest1 := netlocRest.2
  let restFrag : List Char × List Char :=
    match splitAtFirst '#' rest1 with
    | some (a, b) => (a, b)
    | none => (rest1, [])
  let rest2 := restFrag.1
  let fragment := restFrag.2
  let pathQuery : List Char × List Char :=
    match splitAtFirst '?' rest2 with
    | some (a, b) => (a, b)
    | none => (rest2, [])
  { scheme := String.mk scheme
    netloc := String.mk netloc
    path := String.mk pathQuery.1
    query := String.mk pathQuery.2
    fragment := String.mk fragment }

/-- The netloc component, the key of all per-host state. -/
def netlocOf (url : String) : String := (urlsplit url).netloc

/-! ## Crawler state and constants -/

/-- WebCrawler.NETLOC_CONSECUTIVE_FETCH_PAUSE_TRIGGER -/
def NETLOC_CONSECUTIVE_FETCH_PAUSE_TRIGGER : Nat := 5

/-- WebCrawler.NETLOC_CONSECUTIVE_FETCH_PAUSE_SEC -/
def NETLOC_CONSECUTIVE_FETCH_PAUSE_SEC : Nat := 60

/-- WebCrawler.NETLOC_CONSECUTIVE_TIMEOUT_PAUSE_TRIGGER -/
def NETLOC_CONSECUTIVE_TIMEOUT_PAUSE_TRIGGER : Nat :=
  NETLOC_CONSECUTIVE_FETCH_PAUSE_TRIGGER

/-- WebCrawler.NETLOC_CONSECUTIVE_TIMEOUT_INITIAL_PAUSE_SEC -/
def NETLOC_CONSECUTIVE_TIMEOUT_INITIAL_PAUSE_SEC : Nat := 60

/-- WebCrawler.EXCLUDED_EXTENSIONS -/
def EXCLUDED_EXTENSIONS : List String :=
  [".jpg", ".jpeg", ".png", ".svg", ".gif", ".webp", ".bmp", ".tiff",
   ".pdf", ".doc", ".docx", ".ppt", ".pptx", ".xls", ".xlsx",
   ".zip", ".rar", ".tar", ".gz", ".7z", ".iso",
   ".mp3", ".wav", ".ogg", ".mp4", ".avi", ".mov",
   ".exe", ".dll", ".bin", ".bat", ".sh",
   ".css", ".js", ".json", ".xml", ".csv", ".txt"]

/-- A robots decision for one netloc: the can_fetch predicate with the
    crawler's fixed user agent already applied (RobotFileParser is an
    external collaborator). -/
def RobotsDecision : Type := String → Bool

/-- The mutable state of a WebCrawler instance: every attribute
    assigned in WebCrawler.__init__. -/
structure Crawler where
  frontier_q : List String
  visited : Finset String
  HTML_LIMIT : Nat
  html_count : Nat
  NETLOC_PAGE_LIMIT : Nat
  netloc_page_count : Dict Nat
  url_fetch_history : List String
  last_fetch_timeout : Bool
  netloc_seen : Dict Bool
  netloc_rp : Dict RobotsDecision
  netloc_pause_until : Dict Nat
  netloc_consecutive_timeout_count : Dict Nat
  netloc_consecutive_timeout_pause_count : Dict Nat
  netloc_consecutive_fetch_count : Dict Nat

/-! ## Checkpoint manager (save_state / load_state) -/

/-- The dictionary pickled by WebCrawler.save_state, one field per
    entry of the state dict literal.  Serialization itself (pickle) is
    an external collaborator; the blob records exactly the values the
    source stores. -/
structure StateBlob where
  frontier_q : List String
  visited : Finset String
  HTML_LIMIT : Nat
  html_count : Nat
  NETLOC_PAGE_LIMIT : Nat
  netloc_page_count : Dict Nat
  url_fetch_history : List String
  last_fetch_timeout : Bool
  netloc_seen : Dict Bool
  netloc_rp : Dict RobotsDecision
  netloc_pause_until : Dict Nat
  netloc_consecutive_timeout_count : Dict Nat
  netloc_consecutive_timeout_pause_count : Dict Nat
  netloc_consecutive_fetch_count : Dict Nat

/-- WebCrawler.save_state: capture every field into the state dict. -/
def save_state (s : Crawler) : StateBlob :=
  { frontier_q := s.frontier_q
    visited := s.visited
    HTML_LIMIT := s.HTML_LIMIT
    html_count := s.html_count
    NETLOC_PAGE_LIMIT := s.NETLOC_PAGE_LIMIT
    netloc_page_count := s.netloc_page_count
    url_fetch_history := s.url_fetch_history
    last_fetch_timeout := s.last_fetch_timeout
    netloc_seen := s.netloc_seen
    netloc_rp := s.netloc_rp
    netloc_pause_until := s.netloc_pause_until
    netloc_consecutive_timeout_count := s.netloc_consecutive_timeout_count
    netloc_consecutive_timeout_pause_count := s.netloc_consecutive_timeout_pause_count
    netloc_consecutive_fetch_count := s.netloc_consecutive_fetch_count }

/-- WebCrawler.load_state: assign every field back from the state
    dict. -/
def load_state (b : StateBlob) : Crawler :=
  { frontier_q := b.frontier_q
    visited := b.visited
    HTML_LIMIT := b.HTML_LIMIT
    html_count := b.html_count
    NETLOC_PAGE_LIMIT := b.NETLOC_PAGE_LIMIT
    netloc_page_count := b.netloc_page_count
    url_fetch_history := b.url_fetch_history
    last_fetch_timeout := b.last_fetch_timeout
    netloc_seen := b.netloc_seen
    netloc_rp := b.netloc_rp
    netloc_pause_until := b.netloc_pause_until
    netloc_consecutive_timeout_count := b.netloc_consecutive_timeout_count
    netloc_consecutive_timeout_pause_count := b.netloc_consecutive_timeout_pause_count
    netloc_consecutive_fetch_count := b.netloc_consecutive_fetch_count }

/-- WebCrawler.__init__: when a checkpoint is supplied and readable it
    wins; otherwise the constructor arguments populate a fresh state.
    (pickle_file_path plus os.path.exists collapse to the presence of
    the blob.) -/
def webCrawlerInit (initial_urls : List String) (html_limit : Nat)
    (netloc_page_limit : Nat) (checkpoint : Option StateBlob) : Crawler :=
  match checkpoint with
  | some blob => load_state blob
  | none =>
    { frontier_q := initial_urls
      visited := ∅
      HTML_LIMIT := html_limit
      html_count := 0
      NETLOC_PAGE_LIMIT := netloc_page_limit
      netloc_page_count := Dict.empty
      url_fetch_history := []
      last_fetch_timeout := false
      netloc_seen := Dict.empty
      netloc_rp := Dict.empty
      netloc_pause_until := Dict.empty
      netloc_consecutive_timeout_count := Dict.empty
      netloc_consecutive_timeout_pause_count := Dict.empty
      netloc_consecutive_fetch_count := Dict.empty }

/-! ## Fetch history ring -/

/-- WebCrawler.save_url_fetch_history: insert at index 0, then pop the
    last element when the length exceeds the ring capacity. -/
def save_url_fetch_history (s : Crawler) (url : String) : Crawler :=
  let h := url :: s.url_fetch_history
  { s with url_fetch_history :=
      if h.length > NETLOC_CONSECUTIVE_TIMEOUT_PAUSE_TRIGGER then h.dropLast else h }

/-- WebCrawler.get_last_fetch_netloc: netloc of the second most recent
    attempt, or the empty string when fewer than two attempts exist. -/
def get_last_fetch_netloc (s : Crawler) : String :=
  if s.url_fetch_history.length < 2 then ""
  else netlocOf (s.url_fetch_history.getD 1 "")

/-- WebCrawler.requeue_url_fetch_history: for each ring entry in
    most-recent-first order, insert it at the head of the frontier and
    discard it from the visited set. -/
def requeue_url_fetch_history (s : Crawler) : Crawler :=
  s.url_fetch_history.foldl
    (fun t url =>
      { t with
        frontier_q := url :: t.frontier_q
        visited := t.visited.erase url })
    s

/-! ## Admission filter -/

/-- The guard of WebCrawler.filter_and_enqueue_urls for one URL
    against a given state: dedup against frontier and visited,
    http-family scheme, domain-suffix scope, extension exclusion, and
    per-host quota. -/
def admitGuard (s : Crawler) (url : String) : Bool :=
  let p := urlsplit url
  !(s.frontier_q.contains url)
    && !(decide (url ∈ s.visited))
    && p.scheme.startsWith "http"
    && String.endsWith p.netloc ".ku.ac.th"
    && !(EXCLUDED_EXTENSIONS.any (fun e => String.endsWith p.path e))
    && decide (s.netloc_page_count.getD p.netloc 0 < s.NETLOC_PAGE_LIMIT)

/-- WebCrawler.filter_and_enqueue_urls: append each URL passing the
    guard to the frontier tail, re-testing the guard against the state
    as it evolves. -/
def filter_and_enqueue_urls (s : Crawler) (urls : List String) : Crawler :=
  urls.foldl
    (fun t url =>
      if admitGuard t url then { t with frontier_q := t.frontier_q ++ [url] }
      else t)
    s

/-! ## Dequeue -/

/-- Whether a netloc is paused at the given instant: present in
    netloc_pause_until with the current time strictly below it. -/
def netlocPaused (pause : Dict Nat) (netloc : String) (now : Nat) : Bool :=
  match pause netloc with
  | some t => decide (now < t)
  | none => false

/-- The scan inside WebCrawler.dequeue_url: return the first URL whose
    netloc is not paused, together with the frontier with that entry
    removed; none when every entry is paused. -/
def dequeueFrom (pause : Dict Nat) (now : Nat) :
    List String → Option (String × List String)
  | [] => none
  | u :: rest =>
    if netlocPaused pause (netlocOf u) now then
      match dequeueFrom pause now rest with
      | none => none
      | some (v, rest') => some (v, u :: rest')
    else some (u, rest)

/-- WebCrawler.dequeue_url (returning none instead of the empty
    string when nothing is dequeuable). -/
def dequeue_url (s : Crawler) (now : Nat) : Option (String × List String) :=
  dequeueFrom s.netloc_pause_until now s.frontier_q

/-! ## Robots handling -/

/-- WebCrawler.try_get_and_parse_robots_txt: on first sight of a
    netloc mark it seen and, when the external fetch+parse of
    robots.txt succeeds (oracle value some rp), cache the decision;
    any failure is swallowed. -/
def try_get_and_parse_robots_txt (s : Crawler) (netloc : String)
    (robots : Option RobotsDecision) : Crawler :=
  if (s.netloc_seen netloc).isSome then s
  else
    let s := { s with netloc_seen := s.netloc_seen.set netloc true }
    match robots with
    | some rp => { s with netloc_rp := s.netloc_rp.set netloc rp }
    | none => s

/-! ## Consecutive-fetch throttling -/

/-- WebCrawler.handle_netloc_consecutive_fetch.  The current time is
    an oracle input (time.time()).  Reads get_last_fetch_netloc on the
    state after the current URL was recorded, exactly as the source
    calls it. -/
def handle_netloc_consecutive_fetch (s : Crawler) (current_netloc : String)
    (now : Nat) : Crawler :=
  let fc0 := s.netloc_consecutive_fetch_count.init current_netloc 0
  let last := get_last_fetch_netloc s
  let fc1 :=
    if last = current_netloc then
      fc0.set current_netloc (fc0.getD current_netloc 0 + 1)
    else
      let fc := fc0.set current_netloc 1
      if last ≠ "" then fc.set last 0 else fc
  let s := { s with netloc_consecutive_fetch_count := fc1 }
  if fc1.getD current_netloc 0 = NETLOC_CONSECUTIVE_FETCH_PAUSE_TRIGGER then
    let pu := s.netloc_pause_until.set current_netloc
      (now + NETLOC_CONSECUTIVE_FETCH_PAUSE_SEC)
    { s with netloc_pause_until := pu }
  else s

/-! ## Processing one URL -/

/-- Outcome of the external fetch of the current URL, the oracle for
    the try block of WebCrawler.process_url: a successful HTML fetch
    (carrying the discovered links, already extracted and normalized
    by the external collaborators), a ConnectTimeout/ReadTimeout, or
    any other failure (non-2xx status, content-type mismatch, DNS
    error, ...). -/
inductive FetchOutcome where
  | success (links : List String)
  | timeout
  | failure
deriving DecidableEq

/-- Oracle inputs consumed by one crawl-loop iteration: the wall
    clock, the robots.txt decision for a netloc seen for the first
    time (none = fetch/parse failed), and the fetch outcome. -/
structure StepOracle where
  now : Nat
  robots : Option RobotsDecision
  fetch : FetchOutcome

/-- WebCrawler.process_url.  The try block always records the URL in
    the fetch history ring and updates the consecutive-fetch counters
    before the fetch is attempted; the outcome then selects the
    success path, the timeout path or the generic exception path, and
    the finally clause records last_fetch_timeout. -/
def initNetlocCounters (s : Crawler) (current_netloc : String) : Crawler :=
  { s with
    netloc_page_count := s.netloc_page_count.init current_netloc 0
    netloc_consecutive_timeout_count :=
      s.netloc_consecutive_timeout_count.init current_netloc 0
    netloc_consecutive_timeout_pause_count :=
      s.netloc_consecutive_timeout_pause_count.init current_netloc 0 }

def process_url (s : Crawler) (current_url : String) (o : StepOracle) : Crawler :=
  let current_netloc := netlocOf current_url
  let s := initNetlocCounters s current_netloc
  let s := save_url_fetch_history s current_url
  let s := handle_netloc_consecutive_fetch s current_netloc o.now
  match o.fetch with
  | .success links =>
    let s := { s with html_count := s.html_count + 1 }
    let pc := s.netloc_page_count.set current_netloc
      (s.netloc_page_count.getD current_netloc 0 + 1)
    let s := { s with netloc_page_count := pc }
    let s :=
      if s.netloc_page_count.getD current_netloc 0 = s.NETLOC_PAGE_LIMIT then
        { s with frontier_q :=
            s.frontier_q.filter (fun u => netlocOf u ≠ current_netloc) }
      else s
    let tc1 := s.netloc_consecutive_timeout_count.set current_netloc 0
    let s := { s with netloc_consecutive_timeout_count := tc1 }
    let tc2 := s.netloc_consecutive_timeout_count.set (get_last_fetch_netloc s) 0
    let s := { s with netloc_consecutive_timeout_count := tc2 }
    let tpc := s.netloc_consecutive_timeout_pause_count.set current_netloc 0
    let s := { s with netloc_consecutive_timeout_pause_count := tpc }
    let s := filter_and_enqueue_urls s links
    { s with last_fetch_timeout := false }
  | .timeout =>
    let last := get_last_fetch_netloc s
    let tc :=
      if current_netloc = last then
        s.netloc_consecutive_timeout_count.set current_netloc
          (s.netloc_consecutive_timeout_count.getD current_netloc 0 + 1)
      else
        let tc := s.netloc_consecutive_timeout_count.set current_netloc 1
        if last ≠ "" then tc.set last 0 else tc
    let s := { s with netloc_consecutive_timeout_count := tc }
    let s :=
      if s.netloc_consecutive_timeout_count.getD current_netloc 0 =
          NETLOC_CONSECUTIVE_TIMEOUT_PAUSE_TRIGGER then
        let tcz := s.netloc_consecutive_timeout_count.set current_netloc 0
        let s := { s with netloc_consecutive_timeout_count := tcz }
        let tpc := s.netloc_consecutive_timeout_pause_count.set current_netloc
          (s.netloc_consecutive_timeout_pause_count.getD current_netloc 0 + 1)
        let s := { s with netloc_consecutive_timeout_pause_count := tpc }
        let pause_duration := NETLOC_CONSECUTIVE_TIMEOUT_INITIAL_PAUSE_SEC *
          2 ^ (s.netloc_consecutive_timeout_pause_count.getD current_netloc 0 - 1)
        let pu := s.netloc_pause_until.set current_netloc (o.now + pause_duration)
        let s := { s with netloc_pause_until := pu }
        requeue_url_fetch_history s
      else s
    { s with last_fetch_timeout := true }
  | .failure => { s with last_fetch_timeout := false }

/-! ## The crawl loop -/

/-- One iteration of the while loop in WebCrawler.crawl: check the
    loop guard, dequeue (an empty dequeue only sleeps), mark the URL
    visited, resolve robots.txt on first contact with the netloc,
    drop the URL when the cached decision forbids it, otherwise
    process it. -/
def crawlStep (s : Crawler) (o : StepOracle) : Crawler :=
  if 0 < s.frontier_q.length ∧ s.html_count < s.HTML_LIMIT then
    match dequeue_url s o.now with
    | none => s
    | some (url, rest) =>
      let s := { s with frontier_q := rest, visited := insert url s.visited }
      let netloc := netlocOf url
      let s := try_get_and_parse_robots_txt s netloc o.robots
      match s.netloc_rp netloc with
      | some rp => if rp url = false then s else process_url s url o
      | none => process_url s url o
  else s

/-- Run the crawl loop over a list of per-iteration oracles. -/
def runSteps (s : Crawler) (os : List StepOracle) : Crawler :=
  os.foldl crawlStep s

/-! ## Claim C5: the admission filter -/

/-- The five admission conditions exactly as the specification states
    them, written independently of the implementation guard. -/
def admissionConds (s : Crawler) (url : String) : Prop :=
  url ∉ s.frontier_q ∧ url ∉ s.visited ∧
  (urlsplit url).scheme.startsWith "http" = true ∧
  String.endsWith (urlsplit url).netloc ".ku.ac.th" = true ∧
  (∀ e ∈ EXCLUDED_EXTENSIONS, String.endsWith (urlsplit url).path e = false) ∧
  s.netloc_page_count.getD (urlsplit url).netloc 0 < s.NETLOC_PAGE_LIMIT

instance (s : Crawler) (url : String) : Decidable (admissionConds s url) := by
  unfold admissionConds
  exact inferInstance

/-! ## Concrete fixtures shared by counterexamples and witnesses -/

/-- A crawler as constructed fresh: empty frontier, limits 100. -/
def baseC : Crawler := webCrawlerInit [] 100 100 none

/-- Host of the urlA family. -/
def hostA : String := "a.ku.ac.th"

/-- Host of the urlB family. -/
def hostB : String := "b.ku.ac.th"

/-- Concrete URLs of host A. -/
def urlA (n : Nat) : String := "http://a.ku.ac.th/" ++ toString n

/-- Concrete URLs of host B. -/
def urlB (n : Nat) : String := "http://b.ku.ac.th/" ++ toString n

/-- A timed-out fetch at a given instant. -/
def timeoutAt (t : Nat) : StepOracle := ⟨t, none, .timeout⟩

/-- A non-timeout fetch failure at a given instant. -/
def failureAt (t : Nat) : StepOracle := ⟨t, none, .failure⟩

/-- A linkless successful fetch at a given instant. -/
def successAt (t : Nat) : StepOracle := ⟨t, none, .success []⟩

/-! ## Claim C1: escalation counter on success -/

/-- The C1 counterexample state: host A has already been paused for
    timeouts three times. -/
def c1state : Crawler :=
  { baseC with netloc_consecutive_timeout_pause_count := Dict.empty.set hostA 3 }

/-! ## The previous attempted netloc -/

/-- The netloc of the most recently processed URL (the value
    get_last_fetch_netloc returns once the current URL has been
    recorded on top of it). -/
def prevNetloc (s : Crawler) : String :=
  match s.url_fetch_history with
  | [] => ""
  | u :: _ => netlocOf u

/-! ## Claim C9: consecutive-timeout counter semantics -/

/-- The C9 counterexample run: host A times out, then fails with a
    transport error, then times out again, with no other host in
    between. -/
def c9state : Crawler :=
  process_url
    (process_url (process_url baseC (urlA 1) (timeoutAt 0)) (urlA 2) (failureAt 0))
    (urlA 3) (timeoutAt 0)

/-! ## Claim C2: requeue on the timeout-pause trigger -/

/-- The C2 counterexample state: four timeouts of host A already
    recorded, ring full of urlA 4 .. urlA 1, empty frontier. -/
def c2state : Crawler :=
  { baseC with
    url_fetch_history := [urlA 4, urlA 3, urlA 2, urlA 1]
    netloc_consecutive_timeout_count := Dict.empty.set hostA 4 }

/-- The most recent attempt as a function of the raw history list. -/
def lastNetlocOfList (h : List String) : String :=
  match h with
  | [] => ""
  | v :: _ => netlocOf v

/-! ## Claim C8: exponential timeout backoff -/

/-- The host used for the backoff trace. -/
def hostH : String := "h.ku.ac.th"

/-- The URL used for the backoff trace. -/
def urlH : String := "https://h.ku.ac.th/p"

/-- One timed-out processing of urlH at instant tau. -/
def timeoutStep (tau : Nat) (s : Crawler) : Crawler :=
  process_url s urlH ⟨tau, none, FetchOutcome.timeout⟩

/-- n successive timed-out processings of urlH. -/
def iterTimeout (tau : Nat) : Nat → Crawler → Crawler
  | 0, s => s
  | n + 1, s => iterTimeout tau n (timeoutStep tau s)

/-- The start state of the backoff trace: a fresh crawler whose
    fetch-history ring is already filled with attempts of host H (as
    it is after any five processed attempts of H) and whose counters
    for H are all zero/absent. -/
def c8start : Crawler := { baseC with url_fetch_history := List.replicate 5 urlH }

/-! ## Claim C3: frontier dedup and frontier/visited disjointness -/

/-- The dedup invariant of the claim: no duplicate frontier entries,
    and no frontier entry is in the visited set. -/
def crawlerInv (s : Crawler) : Prop :=
  s.frontier_q.Nodup ∧ ∀ u ∈ s.frontier_q, u ∉ s.visited

instance (s : Crawler) : Decidable (crawlerInv s) := by
  unfold crawlerInv
  exact inferInstance

/-- The C3 counterexample run: host A times out four times, then B
    burns through its own five timeouts and triggers a requeue, then
    one stale A error plus one A timeout resurrect A's dormant counter
    and requeue a ring that still contains B URLs sitting in the
    frontier. -/
def c3init : Crawler :=
  { baseC with frontier_q :=
      [urlA 1, urlA 2, urlA 3, urlA 4, urlB 1, urlB 2, urlB 3, urlB 4,
       urlB 5, urlB 6, urlA 5, urlA 6] }

/-- The per-iteration oracles of the C3 counterexample run. -/
def c3oracles : List StepOracle :=
  [timeoutAt 0, timeoutAt 0, timeoutAt 0, timeoutAt 0, failureAt 0,
   timeoutAt 0, timeoutAt 0, timeoutAt 0, timeoutAt 0, timeoutAt 60,
   failureAt 60, timeoutAt 60]

/-- The C6 counterexample run: host B reaches its quota of one page
    and is purged; host A's timeout trigger then requeues a ring still
    holding B URLs, and one of them is dequeued and fetched again. -/
def c6init : Crawler :=
  webCrawlerInit
    [urlA 1, urlA 2, urlA 3, urlA 4, urlB 1, urlB 2, urlB 3, urlA 5, urlA 6]
    100 1 none

/-- The per-iteration oracles of the C6 counterexample run. -/
def c6oracles : List StepOracle :=
  [timeoutAt 0, timeoutAt 0, timeoutAt 0, timeoutAt 0, failureAt 0,
   successAt 0, failureAt 0, timeoutAt 0, successAt 0]

@[simp] theorem Dict.set_apply_same {V : Type} (d : Dict V) (k : String) (v : V) :
    (d.set k v) k = some v := by
  simp [Dict.set]

@[simp] theorem Dict.set_apply_ne {V : Type} (d : Dict V) (k k' : String) (v : V)
    (h : k' ≠ k) : (d.set k v) k' = d k' := by
  simp [Dict.set, h]

@[simp] theorem Dict.getD_set_same {V : Type} (d : Dict V) (k : String) (v a : V) :
    (d.set k v).getD k a = v := by
  simp [Dict.getD]

@[simp] theorem Dict.getD_set_ne {V : Type} (d : Dict V) (k k' : String) (v a : V)
    (h : k' ≠ k) : (d.set k v).getD k' a = d.getD k' a := by
  simp [Dict.getD, h]

@[simp] theorem Dict.getD_empty {V : Type} (k : String) (a : V) :
    (Dict.empty : Dict V).getD k a = a := rfl

@[simp] theorem Dict.getD_init_zero (d : Dict Nat) (k : String) :
    (d.init k 0).getD k 0 = d.getD k 0 := by
  unfold Dict.init Dict.getD
  cases h : d k with
  | none => simp [h]
  | some v => simp [h]

@[simp] theorem Dict.init_apply_ne {V : Type} (d : Dict V) (k k' : String) (v : V)
    (h : k' ≠ k) : (d.init k v) k' = d k' := by
  unfold Dict.init
  cases d k with
  | none => simp [h]
  | some w => simp

@[simp] theorem Dict.init_apply_isSome {V : Type} (d : Dict V) (k : String) (v : V)
    (h : (d k).isSome) : d.init k v = d := by
  simp [Dict.init, h]

/-- Setting a key to zero and then any other key to zero leaves zero
    at the first key. -/
theorem Dict.set_set_zero (d : Dict Nat) (k l : String) :
    ((d.set k 0).set l 0) k = some 0 := by
  by_cases h : k = l
  · subst h
    simp
  · rw [Dict.set_apply_ne _ _ _ _ h, Dict.set_apply_same]

/-! ## Basic lemmas about the operations -/

theorem filter_and_enqueue_nil (s : Crawler) :
    filter_and_enqueue_urls s [] = s := rfl

theorem filter_and_enqueue_cons (s : Crawler) (u : String) (urls : List String) :
    filter_and_enqueue_urls s (u :: urls) =
      filter_and_enqueue_urls
        (if admitGuard s u then { s with frontier_q := s.frontier_q ++ [u] } else s)
        urls := rfl

/-- The admission filter mutates only the frontier. -/
theorem filter_and_enqueue_only_frontier (urls : List String) (s : Crawler) :
    filter_and_enqueue_urls s urls =
      { s with frontier_q := (filter_and_enqueue_urls s urls).frontier_q } := by
  induction urls generalizing s with
  | nil => rfl
  | cons u rest ih =>
    rw [filter_and_enqueue_cons]
    by_cases h : admitGuard s u = true
    · simp only [if_pos h]
      exact (ih _).trans rfl
    · simp only [if_neg h]
      exact (ih _).trans rfl

theorem filter_visited (urls : List String) (s : Crawler) :
    (filter_and_enqueue_urls s urls).visited = s.visited := by
  rw [filter_and_enqueue_only_frontier]

theorem filter_page_count (urls : List String) (s : Crawler) :
    (filter_and_enqueue_urls s urls).netloc_page_count = s.netloc_page_count := by
  rw [filter_and_enqueue_only_frontier]

theorem filter_page_limit (urls : List String) (s : Crawler) :
    (filter_and_enqueue_urls s urls).NETLOC_PAGE_LIMIT = s.NETLOC_PAGE_LIMIT := by
  rw [filter_and_enqueue_only_frontier]

theorem filter_timeout_count (urls : List String) (s : Crawler) :
    (filter_and_enqueue_urls s urls).netloc_consecutive_timeout_count =
      s.netloc_consecutive_timeout_count := by
  rw [filter_and_enqueue_only_frontier]

theorem filter_timeout_pause_count (urls : List String) (s : Crawler) :
    (filter_and_enqueue_urls s urls).netloc_consecutive_timeout_pause_count =
      s.netloc_consecutive_timeout_pause_count := by
  rw [filter_and_enqueue_only_frontier]

theorem filter_pause_until (urls : List String) (s : Crawler) :
    (filter_and_enqueue_urls s urls).netloc_pause_until = s.netloc_pause_until := by
  rw [filter_and_enqueue_only_frontier]

theorem filter_fetch_count (urls : List String) (s : Crawler) :
    (filter_and_enqueue_urls s urls).netloc_consecutive_fetch_count =
      s.netloc_consecutive_fetch_count := by
  rw [filter_and_enqueue_only_frontier]

theorem filter_history (urls : List String) (s : Crawler) :
    (filter_and_enqueue_urls s urls).url_fetch_history = s.url_fetch_history := by
  rw [filter_and_enqueue_only_frontier]

/-- Requeue in closed form: the ring is prepended in reverse order and
    every ring entry is erased from the visited set. -/
theorem requeue_foldl (l : List String) (s : Crawler) :
    (l.foldl
      (fun t url =>
        { t with
          frontier_q := url :: t.frontier_q
          visited := t.visited.erase url }) s) =
    { s with
      frontier_q := l.reverse ++ s.frontier_q
      visited := l.foldl Finset.erase s.visited } := by
  induction l generalizing s with
  | nil => rfl
  | cons u rest ih =>
    simp only [List.foldl_cons, List.reverse_cons, List.append_assoc,
      List.singleton_append]
    rw [ih]

theorem requeue_eq (s : Crawler) :
    requeue_url_fetch_history s =
      { s with
        frontier_q := s.url_fetch_history.reverse ++ s.frontier_q
        visited := s.url_fetch_history.foldl Finset.erase s.visited } := by
  unfold requeue_url_fetch_history
  exact requeue_foldl _ _

/-- Folding erase can only shrink the visited set. -/
theorem mem_of_mem_foldl_erase (l : List String) (vis : Finset String)
    (v : String) (hv : v ∈ l.foldl Finset.erase vis) : v ∈ vis := by
  induction l generalizing vis with
  | nil => exact hv
  | cons u rest ih =>
    have := ih (vis.erase u) hv
    exact Finset.mem_of_mem_erase this

/-- Every element of the folded list is gone afterwards. -/
theorem not_mem_foldl_erase (l : List String) (vis : Finset String)
    (v : String) (hv : v ∈ l) : v ∉ l.foldl Finset.erase vis := by
  induction l generalizing vis with
  | nil => cases hv
  | cons u rest ih =>
    rcases List.mem_cons.mp hv with h | h
    · subst h
      by_cases hr : v ∈ rest
      · exact ih (vis.erase v) hr
      · intro hmem
        exact Finset.not_mem_erase v vis (mem_of_mem_foldl_erase rest _ _ hmem)
    · exact ih (vis.erase u) h

/-! ## Claim C4: checkpoint round-trip -/

/-- C4: restoring a snapshot of any scheduler state yields a state
    equal to the original in every field: frontier order, visited
    membership, html count, both limits, fetch history, last-fetch
    flag, and every per-host policy dictionary. -/
theorem c4_checkpoint_roundtrip (s : Crawler) : load_state (save_state s) = s := rfl

/-! ## Claim C10: checkpoint determines the constructed state -/

/-- C10: when a readable checkpoint is supplied, the constructor
    ignores initial_urls, html_limit and netloc_page_limit entirely:
    any two argument vectors produce identical states from the same
    checkpoint. -/
theorem c10_checkpoint_overrides_arguments (b : StateBlob)
    (urls1 urls2 : List String) (lim1 lim2 n1 n2 : Nat) :
    webCrawlerInit urls1 lim1 n1 (some b) = webCrawlerInit urls2 lim2 n2 (some b) := rfl

/-- The implementation guard decides exactly the five specification
    conditions. -/
theorem admitGuard_iff (s : Crawler) (url : String) :
    admitGuard s url = true ↔ admissionConds s url := by
  unfold admitGuard admissionConds
  simp only [Bool.and_eq_true, Bool.not_eq_true', decide_eq_false_iff_not,
    decide_eq_true_eq]
  constructor
  · rintro ⟨⟨⟨⟨⟨h1, h2⟩, h3⟩, h4⟩, h5⟩, h6⟩
    rw [List.any_eq_false] at h5
    have h1m : url ∉ s.frontier_q := by simpa using h1
    refine ⟨h1m, h2, h3, h4, ?_, h6⟩
    intro e he
    have h5e := h5 e he
    simpa using h5e
  · rintro ⟨h1, h2, h3, h4, h5, h6⟩
    have h1b : s.frontier_q.contains url = false := by simpa using h1
    refine ⟨⟨⟨⟨⟨h1b, h2⟩, h3⟩, h4⟩, ?_⟩, h6⟩
    rw [List.any_eq_false]
    intro e he
    simp [h5 e he]

/-- C5: a URL offered alone to the admission operation is appended to
    the frontier tail iff the five conditions hold (dedup against
    frontier and visited, http scheme, ku.ac.th suffix, non-excluded
    extension, quota not yet reached); nothing else changes, and the
    frontier length grows by the number of newly admitted URLs. -/
theorem c5_admission_filter (s : Crawler) (url : String) :
    (filter_and_enqueue_urls s [url] =
      if admissionConds s url then { s with frontier_q := s.frontier_q ++ [url] }
      else s) ∧
    (filter_and_enqueue_urls s [url]).frontier_q.length =
      s.frontier_q.length + (if admissionConds s url then 1 else 0) := by
  have hg : filter_and_enqueue_urls s [url] =
      if admitGuard s url then { s with frontier_q := s.frontier_q ++ [url] }
      else s := rfl
  by_cases h : admissionConds s url
  · have hb : admitGuard s url = true := (admitGuard_iff s url).mpr h
    rw [hg, if_pos hb, if_pos h, if_pos h]
    simp
  · have hb : admitGuard s url ≠ true := fun hh => h ((admitGuard_iff s url).mp hh)
    rw [hg, if_neg hb, if_neg h, if_neg h]
    exact ⟨rfl, by simp⟩

/-! ## Frame lemmas for the per-step operations -/

theorem save_history_frame (s : Crawler) (u : String) :
    (save_url_fetch_history s u).frontier_q = s.frontier_q ∧
    (save_url_fetch_history s u).visited = s.visited ∧
    (save_url_fetch_history s u).netloc_page_count = s.netloc_page_count ∧
    (save_url_fetch_history s u).netloc_consecutive_timeout_count =
      s.netloc_consecutive_timeout_count ∧
    (save_url_fetch_history s u).netloc_consecutive_timeout_pause_count =
      s.netloc_consecutive_timeout_pause_count ∧
    (save_url_fetch_history s u).netloc_consecutive_fetch_count =
      s.netloc_consecutive_fetch_count ∧
    (save_url_fetch_history s u).netloc_pause_until = s.netloc_pause_until ∧
    (save_url_fetch_history s u).NETLOC_PAGE_LIMIT = s.NETLOC_PAGE_LIMIT ∧
    (save_url_fetch_history s u).html_count = s.html_count := by
  unfold save_url_fetch_history
  exact ⟨rfl, rfl, rfl, rfl, rfl, rfl, rfl, rfl, rfl⟩

theorem handle_fetch_frame (s : Crawler) (n : String) (t : Nat) :
    (handle_netloc_consecutive_fetch s n t).frontier_q = s.frontier_q ∧
    (handle_netloc_consecutive_fetch s n t).visited = s.visited ∧
    (handle_netloc_consecutive_fetch s n t).netloc_page_count = s.netloc_page_count ∧
    (handle_netloc_consecutive_fetch s n t).netloc_consecutive_timeout_count =
      s.netloc_consecutive_timeout_count ∧
    (handle_netloc_consecutive_fetch s n t).netloc_consecutive_timeout_pause_count =
      s.netloc_consecutive_timeout_pause_count ∧
    (handle_netloc_consecutive_fetch s n t).url_fetch_history = s.url_fetch_history ∧
    (handle_netloc_consecutive_fetch s n t).NETLOC_PAGE_LIMIT = s.NETLOC_PAGE_LIMIT ∧
    (handle_netloc_consecutive_fetch s n t).html_count = s.html_count := by
  unfold handle_netloc_consecutive_fetch
  dsimp only
  repeat' split
  all_goals exact ⟨rfl, rfl, rfl, rfl, rfl, rfl, rfl, rfl⟩

theorem save_tpc (s : Crawler) (u : String) :
    (save_url_fetch_history s u).netloc_consecutive_timeout_pause_count =
      s.netloc_consecutive_timeout_pause_count := rfl

theorem save_tc (s : Crawler) (u : String) :
    (save_url_fetch_history s u).netloc_consecutive_timeout_count =
      s.netloc_consecutive_timeout_count := rfl

theorem save_page (s : Crawler) (u : String) :
    (save_url_fetch_history s u).netloc_page_count = s.netloc_page_count := rfl

theorem save_frontier (s : Crawler) (u : String) :
    (save_url_fetch_history s u).frontier_q = s.frontier_q := rfl

theorem save_visited (s : Crawler) (u : String) :
    (save_url_fetch_history s u).visited = s.visited := rfl

theorem save_limit (s : Crawler) (u : String) :
    (save_url_fetch_history s u).NETLOC_PAGE_LIMIT = s.NETLOC_PAGE_LIMIT := rfl

theorem handle_tpc (s : Crawler) (n : String) (t : Nat) :
    (handle_netloc_consecutive_fetch s n t).netloc_consecutive_timeout_pause_count =
      s.netloc_consecutive_timeout_pause_count :=
  (handle_fetch_frame s n t).2.2.2.2.1

theorem handle_tc (s : Crawler) (n : String) (t : Nat) :
    (handle_netloc_consecutive_fetch s n t).netloc_consecutive_timeout_count =
      s.netloc_consecutive_timeout_count :=
  (handle_fetch_frame s n t).2.2.2.1

theorem handle_page (s : Crawler) (n : String) (t : Nat) :
    (handle_netloc_consecutive_fetch s n t).netloc_page_count = s.netloc_page_count :=
  (handle_fetch_frame s n t).2.2.1

theorem handle_frontier (s : Crawler) (n : String) (t : Nat) :
    (handle_netloc_consecutive_fetch s n t).frontier_q = s.frontier_q :=
  (handle_fetch_frame s n t).1

theorem handle_visited (s : Crawler) (n : String) (t : Nat) :
    (handle_netloc_consecutive_fetch s n t).visited = s.visited :=
  (handle_fetch_frame s n t).2.1

theorem handle_history (s : Crawler) (n : String) (t : Nat) :
    (handle_netloc_consecutive_fetch s n t).url_fetch_history = s.url_fetch_history :=
  (handle_fetch_frame s n t).2.2.2.2.2.1

theorem handle_limit (s : Crawler) (n : String) (t : Nat) :
    (handle_netloc_consecutive_fetch s n t).NETLOC_PAGE_LIMIT = s.NETLOC_PAGE_LIMIT :=
  (handle_fetch_frame s n t).2.2.2.2.2.2.1

theorem initCounters_history (s : Crawler) (n : String) :
    (initNetlocCounters s n).url_fetch_history = s.url_fetch_history := rfl

theorem initCounters_frontier (s : Crawler) (n : String) :
    (initNetlocCounters s n).frontier_q = s.frontier_q := rfl

theorem initCounters_visited (s : Crawler) (n : String) :
    (initNetlocCounters s n).visited = s.visited := rfl

theorem initCounters_fc (s : Crawler) (n : String) :
    (initNetlocCounters s n).netloc_consecutive_fetch_count =
      s.netloc_consecutive_fetch_count := rfl

theorem initCounters_pause (s : Crawler) (n : String) :
    (initNetlocCounters s n).netloc_pause_until = s.netloc_pause_until := rfl

theorem initCounters_limit (s : Crawler) (n : String) :
    (initNetlocCounters s n).NETLOC_PAGE_LIMIT = s.NETLOC_PAGE_LIMIT := rfl

theorem initCounters_tc_getD (s : Crawler) (n : String) :
    (initNetlocCounters s n).netloc_consecutive_timeout_count.getD n 0 =
      s.netloc_consecutive_timeout_count.getD n 0 := Dict.getD_init_zero _ _

theorem initCounters_tpc_getD (s : Crawler) (n : String) :
    (initNetlocCounters s n).netloc_consecutive_timeout_pause_count.getD n 0 =
      s.netloc_consecutive_timeout_pause_count.getD n 0 := Dict.getD_init_zero _ _

theorem initCounters_page_getD (s : Crawler) (n : String) :
    (initNetlocCounters s n).netloc_page_count.getD n 0 =
      s.netloc_page_count.getD n 0 := Dict.getD_init_zero _ _

theorem initCounters_tc_ne (s : Crawler) (n k : String) (h : k ≠ n) :
    (initNetlocCounters s n).netloc_consecutive_timeout_count k =
      s.netloc_consecutive_timeout_count k := Dict.init_apply_ne _ _ _ _ h

theorem initCounters_tpc_ne (s : Crawler) (n k : String) (h : k ≠ n) :
    (initNetlocCounters s n).netloc_consecutive_timeout_pause_count k =
      s.netloc_consecutive_timeout_pause_count k := Dict.init_apply_ne _ _ _ _ h

/-- C1 counterexample: a successful fetch for host A resets host A's
    timeout-pause escalation counter from 3 to 0 (source line 328), so
    the escalation counter is NOT left unchanged by success and the
    next backoff pause would be the initial duration again, not a
    grown one. -/
theorem c1_counterexample :
    (process_url c1state (urlA 1) (successAt 0)).netloc_consecutive_timeout_pause_count.getD hostA 0 = 0 ∧
    (process_url c1state (urlA 1) (successAt 0)).netloc_consecutive_timeout_pause_count.getD hostA 0 ≠
      c1state.netloc_consecutive_timeout_pause_count.getD hostA 0 := by
  decide

/-- C1 amended: a successful fetch zeroes the current host's
    consecutive-timeout counter AND the current host's timeout-pause
    escalation counter; escalation counters of every other host are
    untouched.  (The claim's frame part survives only for hosts other
    than the fetched one.) -/
theorem c1_success_zeroes_escalation (s : Crawler) (url : String) (o : StepOracle)
    (links : List String) (ho : o.fetch = .success links) :
    (process_url s url o).netloc_consecutive_timeout_pause_count (netlocOf url) = some 0 ∧
    (∀ h, h ≠ netlocOf url →
      (process_url s url o).netloc_consecutive_timeout_pause_count h =
        s.netloc_consecutive_timeout_pause_count h) ∧
    (process_url s url o).netloc_consecutive_timeout_count (netlocOf url) = some 0 := by
  obtain ⟨now, robots, fetch⟩ := o
  simp only at ho
  subst ho
  unfold process_url
  dsimp only
  refine ⟨?_, ?_, ?_⟩
  · rw [filter_timeout_pause_count]
    exact Dict.set_apply_same _ _ _
  · intro h hne
    rw [filter_timeout_pause_count]
    dsimp only
    rw [Dict.set_apply_ne _ _ _ _ hne]
    split
    · rw [handle_tpc, save_tpc]
      exact initCounters_tpc_ne _ _ _ hne
    · rw [handle_tpc, save_tpc]
      exact initCounters_tpc_ne _ _ _ hne
  · rw [filter_timeout_count]
    dsimp only
    exact Dict.set_set_zero _ _ _

/-- Witness for the amended C1 theorem at a concrete state. -/
theorem c1_success_zeroes_escalation_witness :
    (⟨0, none, .success []⟩ : StepOracle).fetch = .success [] ∧
    (process_url c1state (urlA 1) ⟨0, none, .success []⟩).netloc_consecutive_timeout_pause_count (netlocOf (urlA 1)) = some 0 := by
  exact ⟨rfl, (c1_success_zeroes_escalation c1state (urlA 1) _ [] rfl).1⟩

theorem getLast_congr (s₁ s₂ : Crawler)
    (h : s₁.url_fetch_history = s₂.url_fetch_history) :
    get_last_fetch_netloc s₁ = get_last_fetch_netloc s₂ := by
  unfold get_last_fetch_netloc
  rw [h]

/-- After recording the current URL, get_last_fetch_netloc yields the
    netloc of the previously recorded URL. -/
theorem getLast_save (s : Crawler) (u : String) :
    get_last_fetch_netloc (save_url_fetch_history s u) = prevNetloc s := by
  unfold get_last_fetch_netloc save_url_fetch_history prevNetloc
  cases h : s.url_fetch_history with
  | nil => simp [NETLOC_CONSECUTIVE_TIMEOUT_PAUSE_TRIGGER,
      NETLOC_CONSECUTIVE_FETCH_PAUSE_TRIGGER]
  | cons v t =>
    simp only [List.length_cons]
    by_cases hl : t.length + 1 + 1 > NETLOC_CONSECUTIVE_TIMEOUT_PAUSE_TRIGGER
    · rw [if_pos hl]
      have ht : t ≠ [] := by
        intro he
        subst he
        simp [NETLOC_CONSECUTIVE_TIMEOUT_PAUSE_TRIGGER,
          NETLOC_CONSECUTIVE_FETCH_PAUSE_TRIGGER] at hl
      have hdrop : (u :: v :: t).dropLast = u :: v :: t.dropLast := by
        cases t with
        | nil => exact absurd rfl ht
        | cons w r => rfl
      rw [hdrop]
      have hlen : ¬ (u :: v :: t.dropLast).length < 2 := by
        simp
      rw [if_neg hlen]
      rfl
    · rw [if_neg hl]
      have hlen : ¬ (u :: v :: t).length < 2 := by
        simp
      rw [if_neg hlen]
      rfl

/-- C9 counterexample: after timeout, transport-error, timeout on the
    same host the counter is 2, not the 1 the claim requires (the
    claim says a non-timeout outcome ends the streak, so the final
    timeout would start a new streak of length 1; the code's generic
    exception path does not touch the counter at all). -/
theorem c9_counterexample :
    c9state.netloc_consecutive_timeout_count.getD hostA 0 = 2 ∧
    c9state.netloc_consecutive_timeout_count.getD hostA 0 ≠ 1 := by
  decide

/-- get_last_fetch_netloc after record-then-throttle is the netloc of
    the previously processed URL. -/
theorem getLast_handle_save (s : Crawler) (u n : String) (t : Nat) :
    get_last_fetch_netloc
      (handle_netloc_consecutive_fetch (save_url_fetch_history s u) n t) =
      prevNetloc s := by
  rw [getLast_congr _ (save_url_fetch_history s u) (handle_history _ _ _),
    getLast_save]

/-- C9 amended: the counter is governed by the previously processed
    URL's netloc: a success zeroes it; a timeout increments it when
    the previous processed fetch was the same host and otherwise
    resets it to 1; a non-timeout failure (content-type mismatch,
    transport error) leaves it exactly unchanged — it neither ends
    nor extends the streak. -/
theorem c9_timeout_streak_semantics (s : Crawler) (url : String) (o : StepOracle) :
    (∀ links, o.fetch = .success links →
      (process_url s url o).netloc_consecutive_timeout_count.getD (netlocOf url) 0 = 0) ∧
    (o.fetch = .failure →
      (process_url s url o).netloc_consecutive_timeout_count.getD (netlocOf url) 0 =
        s.netloc_consecutive_timeout_count.getD (netlocOf url) 0) ∧
    (o.fetch = .timeout → prevNetloc s = netlocOf url →
      s.netloc_consecutive_timeout_count.getD (netlocOf url) 0 + 1 ≠
        NETLOC_CONSECUTIVE_TIMEOUT_PAUSE_TRIGGER →
      (process_url s url o).netloc_consecutive_timeout_count.getD (netlocOf url) 0 =
        s.netloc_consecutive_timeout_count.getD (netlocOf url) 0 + 1) ∧
    (o.fetch = .timeout → prevNetloc s ≠ netlocOf url →
      (process_url s url o).netloc_consecutive_timeout_count.getD (netlocOf url) 0 = 1) := by
  obtain ⟨now, robots, fetch⟩ := o
  refine ⟨?_, ?_, ?_, ?_⟩
  · intro links ho
    simp only at ho
    subst ho
    unfold process_url
    dsimp only
    rw [filter_timeout_count]
    dsimp only
    unfold Dict.getD
    rw [Dict.set_set_zero]
    rfl
  · intro ho
    simp only at ho
    subst ho
    unfold process_url
    dsimp only
    rw [handle_tc, save_tc]
    exact initCounters_tc_getD _ _
  · intro ho hprev htrig
    simp only at ho
    subst ho
    unfold process_url
    dsimp only
    simp only [handle_tc, save_tc, getLast_handle_save]
    split
    · split
      · rename_i hcond htrig5
        rw [Dict.getD_set_same, initCounters_tc_getD] at htrig5
        exact absurd htrig5 htrig
      · rename_i hcond htrig5
        rw [Dict.getD_set_same, initCounters_tc_getD]
    · rename_i hcond
      exact absurd hprev.symm hcond
  · intro ho hprev
    simp only at ho
    subst ho
    unfold process_url
    dsimp only
    simp only [handle_tc, save_tc, getLast_handle_save]
    split
    · rename_i hcond
      exact absurd hcond.symm hprev
    · rename_i hcond
      split
      · rename_i hlast
        split
        · rename_i h5
          exfalso
          rw [Dict.getD_set_ne _ _ _ _ _ hcond, Dict.getD_set_same] at h5
          exact absurd h5 (by decide)
        · rename_i h5
          dsimp only
          rw [Dict.getD_set_ne _ _ _ _ _ hcond, Dict.getD_set_same]
      · rename_i hlast
        split
        · rename_i h5
          exfalso
          rw [Dict.getD_set_same] at h5
          exact absurd h5 (by decide)
        · rename_i h5
          dsimp only
          rw [Dict.getD_set_same]

/-- Witness for the amended C9 theorem: a transport error leaves the
    counter unchanged at a concrete state. -/
theorem c9_timeout_streak_semantics_witness :
    (failureAt 0).fetch = FetchOutcome.failure ∧
    (process_url baseC (urlA 1) (failureAt 0)).netloc_consecutive_timeout_count.getD (netlocOf (urlA 1)) 0 =
      baseC.netloc_consecutive_timeout_count.getD (netlocOf (urlA 1)) 0 :=
  ⟨rfl, (c9_timeout_streak_semantics baseC (urlA 1) (failureAt 0)).2.1 rfl⟩

/-! ## Requeue projections -/

theorem requeue_tc (s : Crawler) :
    (requeue_url_fetch_history s).netloc_consecutive_timeout_count =
      s.netloc_consecutive_timeout_count := by
  rw [requeue_eq]

theorem requeue_tpc (s : Crawler) :
    (requeue_url_fetch_history s).netloc_consecutive_timeout_pause_count =
      s.netloc_consecutive_timeout_pause_count := by
  rw [requeue_eq]

theorem requeue_pause (s : Crawler) :
    (requeue_url_fetch_history s).netloc_pause_until = s.netloc_pause_until := by
  rw [requeue_eq]

theorem requeue_history (s : Crawler) :
    (requeue_url_fetch_history s).url_fetch_history = s.url_fetch_history := by
  rw [requeue_eq]

theorem requeue_page (s : Crawler) :
    (requeue_url_fetch_history s).netloc_page_count = s.netloc_page_count := by
  rw [requeue_eq]

theorem requeue_fc (s : Crawler) :
    (requeue_url_fetch_history s).netloc_consecutive_fetch_count =
      s.netloc_consecutive_fetch_count := by
  rw [requeue_eq]

theorem requeue_frontier (s : Crawler) :
    (requeue_url_fetch_history s).frontier_q =
      s.url_fetch_history.reverse ++ s.frontier_q := by
  rw [requeue_eq]

theorem requeue_visited (s : Crawler) :
    (requeue_url_fetch_history s).visited =
      s.url_fetch_history.foldl Finset.erase s.visited := by
  rw [requeue_eq]

/-- C2 counterexample: at the trigger the ring contents (most recent
    first: urlA 5, urlA 4, ..., urlA 1) are NOT prepended to the
    frontier in ring order; the frontier head ends up in the reversed
    (oldest-attempt-first) order, because each insert(0, url) pushes
    the previous one back. -/
theorem c2_counterexample :
    (process_url c2state (urlA 5) (timeoutAt 7)).frontier_q ≠
      [urlA 5, urlA 4, urlA 3, urlA 2, urlA 1] ∧
    (process_url c2state (urlA 5) (timeoutAt 7)).frontier_q =
      [urlA 1, urlA 2, urlA 3, urlA 4, urlA 5] := by
  decide

/-- C2 amended: when the consecutive-timeout counter reaches the
    trigger, the whole ring (current URL included) is reinserted at
    the frontier head in reverse ring order — oldest attempt first,
    i.e. the order the URLs were originally dequeued in — every ring
    entry is removed from Visited, and the host is paused until
    now + initial backoff times 2 to the previous escalation count. -/
theorem c2_requeue_on_trigger (s : Crawler) (url : String) (o : StepOracle)
    (ho : o.fetch = .timeout)
    (hprev : prevNetloc s = netlocOf url)
    (hcount : s.netloc_consecutive_timeout_count.getD (netlocOf url) 0 + 1 =
      NETLOC_CONSECUTIVE_TIMEOUT_PAUSE_TRIGGER) :
    (process_url s url o).frontier_q =
      (save_url_fetch_history s url).url_fetch_history.reverse ++ s.frontier_q ∧
    (∀ v ∈ (save_url_fetch_history s url).url_fetch_history,
      v ∉ (process_url s url o).visited) ∧
    (process_url s url o).netloc_pause_until (netlocOf url) =
      some (o.now + NETLOC_CONSECUTIVE_TIMEOUT_INITIAL_PAUSE_SEC *
        2 ^ s.netloc_consecutive_timeout_pause_count.getD (netlocOf url) 0) := by
  obtain ⟨now, robots, fetch⟩ := o
  simp only at ho
  subst ho
  unfold process_url
  dsimp only
  simp only [getLast_handle_save]
  split
  · rename_i hcond
    split
    · rename_i h5
      refine ⟨?_, ?_, ?_⟩
      · rw [requeue_frontier]
        dsimp only
        rw [handle_history, handle_frontier, save_frontier]
        rfl
      · intro v hv
        rw [requeue_visited]
        apply not_mem_foldl_erase
        dsimp only
        rw [handle_history]
        exact hv
      · rw [requeue_pause]
        dsimp only
        rw [Dict.set_apply_same]
        rw [handle_tpc, save_tpc]
        rw [Dict.getD_set_same, initCounters_tpc_getD, Nat.add_sub_cancel]
    · rename_i h5
      exfalso
      rw [handle_tc, save_tc] at h5
      rw [Dict.getD_set_same, initCounters_tc_getD] at h5
      exact h5 hcount
  · rename_i hcond
    exact absurd hprev.symm hcond

/-- Witness for the amended C2 theorem at the concrete trigger
    state. -/
theorem c2_requeue_on_trigger_witness :
    ((timeoutAt 7).fetch = FetchOutcome.timeout ∧
      prevNetloc c2state = netlocOf (urlA 5) ∧
      c2state.netloc_consecutive_timeout_count.getD (netlocOf (urlA 5)) 0 + 1 =
        NETLOC_CONSECUTIVE_TIMEOUT_PAUSE_TRIGGER) ∧
    (process_url c2state (urlA 5) (timeoutAt 7)).frontier_q =
      (save_url_fetch_history c2state (urlA 5)).url_fetch_history.reverse ++
        c2state.frontier_q :=
  ⟨⟨rfl, by decide, by decide⟩,
    (c2_requeue_on_trigger c2state (urlA 5) (timeoutAt 7) rfl (by decide) (by decide)).1⟩

/-! ## Claim C7: the consecutive-fetch pause -/

theorem prevNetloc_congr (s₁ s₂ : Crawler)
    (h : s₁.url_fetch_history = s₂.url_fetch_history) :
    prevNetloc s₁ = prevNetloc s₂ := by
  unfold prevNetloc
  rw [h]

/-- After recording a URL, it is the most recent attempt. -/
theorem prevNetloc_save (s : Crawler) (u : String) :
    prevNetloc (save_url_fetch_history s u) = netlocOf u := by
  unfold save_url_fetch_history
  dsimp only
  by_cases hlen : (u :: s.url_fetch_history).length >
      NETLOC_CONSECUTIVE_TIMEOUT_PAUSE_TRIGGER
  · rw [if_pos hlen]
    cases h : s.url_fetch_history with
    | nil =>
      rw [h] at hlen
      simp at hlen
      exact absurd hlen (by decide)
    | cons v t =>
      rfl
  · rw [if_neg hlen]
    rfl

/-- The value and pause effect of handle_netloc_consecutive_fetch on
    the current netloc. -/
theorem handle_effect (s : Crawler) (n : String) (t : Nat) :
    (get_last_fetch_netloc s = n →
      (handle_netloc_consecutive_fetch s n t).netloc_consecutive_fetch_count.getD n 0 =
        s.netloc_consecutive_fetch_count.getD n 0 + 1) ∧
    (get_last_fetch_netloc s ≠ n →
      (handle_netloc_consecutive_fetch s n t).netloc_consecutive_fetch_count.getD n 0 = 1) ∧
    ((handle_netloc_consecutive_fetch s n t).netloc_consecutive_fetch_count.getD n 0 ≠
        NETLOC_CONSECUTIVE_FETCH_PAUSE_TRIGGER →
      (handle_netloc_consecutive_fetch s n t).netloc_pause_until = s.netloc_pause_until) ∧
    ((handle_netloc_consecutive_fetch s n t).netloc_consecutive_fetch_count.getD n 0 =
        NETLOC_CONSECUTIVE_FETCH_PAUSE_TRIGGER →
      (handle_netloc_consecutive_fetch s n t).netloc_pause_until =
        s.netloc_pause_until.set n (t + NETLOC_CONSECUTIVE_FETCH_PAUSE_SEC)) := by
  unfold handle_netloc_consecutive_fetch
  dsimp only
  by_cases hlast : get_last_fetch_netloc s = n
  · rw [if_pos hlast]
    have hfc : ((s.netloc_consecutive_fetch_count.init n 0).set n
        ((s.netloc_consecutive_fetch_count.init n 0).getD n 0 + 1)).getD n 0 =
        s.netloc_consecutive_fetch_count.getD n 0 + 1 := by
      rw [Dict.getD_set_same, Dict.getD_init_zero]
    by_cases hguard : ((s.netloc_consecutive_fetch_count.init n 0).set n
        ((s.netloc_consecutive_fetch_count.init n 0).getD n 0 + 1)).getD n 0 =
        NETLOC_CONSECUTIVE_FETCH_PAUSE_TRIGGER
    · rw [if_pos hguard]
      exact ⟨fun _ => hfc, fun hn => absurd hlast hn,
        fun hne => absurd hguard hne, fun _ => rfl⟩
    · rw [if_neg hguard]
      exact ⟨fun _ => hfc, fun hn => absurd hlast hn,
        fun _ => rfl, fun heq => absurd heq hguard⟩
  · rw [if_neg hlast]
    have hne : n ≠ get_last_fetch_netloc s := fun he => hlast he.symm
    by_cases hemp : get_last_fetch_netloc s ≠ ""
    · rw [if_pos hemp]
      have hfc : (((s.netloc_consecutive_fetch_count.init n 0).set n 1).set
          (get_last_fetch_netloc s) 0).getD n 0 = 1 := by
        rw [Dict.getD_set_ne _ _ _ _ _ hne, Dict.getD_set_same]
      by_cases hguard : (((s.netloc_consecutive_fetch_count.init n 0).set n 1).set
          (get_last_fetch_netloc s) 0).getD n 0 =
          NETLOC_CONSECUTIVE_FETCH_PAUSE_TRIGGER
      · rw [if_pos hguard]
        exact ⟨fun hl => absurd hl hlast, fun _ => hfc,
          fun hn => absurd hguard hn, fun _ => rfl⟩
      · rw [if_neg hguard]
        exact ⟨fun hl => absurd hl hlast, fun _ => hfc,
          fun _ => rfl, fun heq => absurd heq hguard⟩
    · rw [if_neg hemp]
      have hfc : ((s.netloc_consecutive_fetch_count.init n 0).set n 1).getD n 0 = 1 := by
        rw [Dict.getD_set_same]
      by_cases hguard : ((s.netloc_consecutive_fetch_count.init n 0).set n 1).getD n 0 =
          NETLOC_CONSECUTIVE_FETCH_PAUSE_TRIGGER
      · rw [if_pos hguard]
        exact ⟨fun hl => absurd hl hlast, fun _ => hfc,
          fun hn => absurd hguard hn, fun _ => rfl⟩
      · rw [if_neg hguard]
        exact ⟨fun hl => absurd hl hlast, fun _ => hfc,
          fun _ => rfl, fun heq => absurd heq hguard⟩

theorem initCounters_prevNetloc (s : Crawler) (n : String) :
    prevNetloc (initNetlocCounters s n) = prevNetloc s := rfl

theorem prevNetloc_def (s : Crawler) :
    prevNetloc s = lastNetlocOfList s.url_fetch_history := rfl

theorem lastNetloc_save_history (s : Crawler) (u : String) :
    lastNetlocOfList (save_url_fetch_history s u).url_fetch_history = netlocOf u := by
  have h := prevNetloc_save s u
  rw [prevNetloc_def] at h
  exact h

/-- For any non-timeout outcome, process_url changes the
    consecutive-fetch counters, the pause map and the fetch history
    exactly as record-then-throttle does. -/
theorem process_nontimeout_proj (s : Crawler) (u : String) (o : StepOracle)
    (ho : o.fetch ≠ FetchOutcome.timeout) :
    (process_url s u o).netloc_consecutive_fetch_count =
      (handle_netloc_consecutive_fetch
        (save_url_fetch_history (initNetlocCounters s (netlocOf u)) u)
        (netlocOf u) o.now).netloc_consecutive_fetch_count ∧
    (process_url s u o).netloc_pause_until =
      (handle_netloc_consecutive_fetch
        (save_url_fetch_history (initNetlocCounters s (netlocOf u)) u)
        (netlocOf u) o.now).netloc_pause_until ∧
    (process_url s u o).url_fetch_history =
      (handle_netloc_consecutive_fetch
        (save_url_fetch_history (initNetlocCounters s (netlocOf u)) u)
        (netlocOf u) o.now).url_fetch_history := by
  obtain ⟨now, robots, fetch⟩ := o
  cases fetch with
  | timeout => exact absurd rfl ho
  | failure => exact ⟨rfl, rfl, rfl⟩
  | success links =>
    unfold process_url
    dsimp only
    rw [filter_fetch_count, filter_pause_until, filter_history]
    dsimp only
    split
    · exact ⟨rfl, rfl, rfl⟩
    · exact ⟨rfl, rfl, rfl⟩

/-- One non-timeout processed dequeue: the current URL becomes the
    most recent attempt; the consecutive-fetch counter increments on a
    same-host repeat and resets to 1 otherwise; the pause map is
    untouched unless the counter lands exactly on the trigger, in
    which case the host is paused until now + fetchPauseSeconds. -/
theorem process_fetch_throttle_step (s : Crawler) (u : String) (o : StepOracle)
    (ho : o.fetch ≠ FetchOutcome.timeout) :
    prevNetloc (process_url s u o) = netlocOf u ∧
    (prevNetloc s = netlocOf u →
      (process_url s u o).netloc_consecutive_fetch_count.getD (netlocOf u) 0 =
        s.netloc_consecutive_fetch_count.getD (netlocOf u) 0 + 1) ∧
    (prevNetloc s ≠ netlocOf u →
      (process_url s u o).netloc_consecutive_fetch_count.getD (netlocOf u) 0 = 1) ∧
    ((process_url s u o).netloc_consecutive_fetch_count.getD (netlocOf u) 0 ≠
        NETLOC_CONSECUTIVE_FETCH_PAUSE_TRIGGER →
      (process_url s u o).netloc_pause_until = s.netloc_pause_until) ∧
    ((process_url s u o).netloc_consecutive_fetch_count.getD (netlocOf u) 0 =
        NETLOC_CONSECUTIVE_FETCH_PAUSE_TRIGGER →
      (process_url s u o).netloc_pause_until =
        s.netloc_pause_until.set (netlocOf u)
          (o.now + NETLOC_CONSECUTIVE_FETCH_PAUSE_SEC)) := by
  obtain ⟨hfc, hpause, hhist⟩ := process_nontimeout_proj s u o ho
  have hE := handle_effect
    (save_url_fetch_history (initNetlocCounters s (netlocOf u)) u) (netlocOf u) o.now
  have hgl : get_last_fetch_netloc
      (save_url_fetch_history (initNetlocCounters s (netlocOf u)) u) = prevNetloc s := by
    rw [getLast_save, initCounters_prevNetloc]
  refine ⟨?_, ?_, ?_, ?_, ?_⟩
  · rw [prevNetloc_def, hhist, handle_history, lastNetloc_save_history]
  · intro hprev
    rw [hfc]
    exact hE.1 (hgl.trans hprev)
  · intro hprev
    rw [hfc]
    refine hE.2.1 ?_
    rw [hgl]
    exact hprev
  · intro hne
    rw [hfc] at hne
    rw [hpause, hE.2.2.1 hne]
    rfl
  · intro heq
    rw [hfc] at heq
    rw [hpause, hE.2.2.2 heq]
    rfl

/-- C7: five immediately-consecutive processed dequeues of one host
    (no other host processed in between, outcomes not timeouts so the
    backoff path cannot interfere) leave the pause map untouched at
    the first four dequeues and set the host's pausedUntil to
    now + fetchPauseSeconds exactly at the fifth — the fetch-pause
    trigger fires exactly once. -/
theorem c7_fetch_pause_after_five (s : Crawler)
    (u1 u2 u3 u4 u5 : String) (o1 o2 o3 o4 o5 : StepOracle) (H : String)
    (h1 : netlocOf u1 = H) (h2 : netlocOf u2 = H) (h3 : netlocOf u3 = H)
    (h4 : netlocOf u4 = H) (h5 : netlocOf u5 = H)
    (f1 : o1.fetch ≠ FetchOutcome.timeout) (f2 : o2.fetch ≠ FetchOutcome.timeout)
    (f3 : o3.fetch ≠ FetchOutcome.timeout) (f4 : o4.fetch ≠ FetchOutcome.timeout)
    (f5 : o5.fetch ≠ FetchOutcome.timeout)
    (hprev : prevNetloc s ≠ H) :
    (process_url s u1 o1).netloc_pause_until = s.netloc_pause_until ∧
    (process_url (process_url s u1 o1) u2 o2).netloc_pause_until =
      s.netloc_pause_until ∧
    (process_url (process_url (process_url s u1 o1) u2 o2) u3 o3).netloc_pause_until =
      s.netloc_pause_until ∧
    (process_url (process_url (process_url (process_url s u1 o1) u2 o2) u3 o3)
      u4 o4).netloc_pause_until = s.netloc_pause_until ∧
    (process_url (process_url (process_url (process_url (process_url s u1 o1)
      u2 o2) u3 o3) u4 o4) u5 o5).netloc_pause_until =
      s.netloc_pause_until.set H (o5.now + NETLOC_CONSECUTIVE_FETCH_PAUSE_SEC) := by
  have P1 := process_fetch_throttle_step s u1 o1 f1
  rw [h1] at P1
  have hfc1 := P1.2.2.1 hprev
  have hp1 := P1.2.2.2.1 (by rw [hfc1]; decide)
  have P2 := process_fetch_throttle_step (process_url s u1 o1) u2 o2 f2
  rw [h2] at P2
  have hfc2 : (process_url (process_url s u1 o1) u2 o2).netloc_consecutive_fetch_count.getD H 0 = 2 := by
    rw [P2.2.1 P1.1, hfc1]
  have hp2 := P2.2.2.2.1 (by rw [hfc2]; decide)
  have P3 := process_fetch_throttle_step
    (process_url (process_url s u1 o1) u2 o2) u3 o3 f3
  rw [h3] at P3
  have hfc3 : (process_url (process_url (process_url s u1 o1) u2 o2) u3 o3).netloc_consecutive_fetch_count.getD H 0 = 3 := by
    rw [P3.2.1 P2.1, hfc2]
  have hp3 := P3.2.2.2.1 (by rw [hfc3]; decide)
  have P4 := process_fetch_throttle_step
    (process_url (process_url (process_url s u1 o1) u2 o2) u3 o3) u4 o4 f4
  rw [h4] at P4
  have hfc4 : (process_url (process_url (process_url (process_url s u1 o1) u2 o2) u3 o3) u4 o4).netloc_consecutive_fetch_count.getD H 0 = 4 := by
    rw [P4.2.1 P3.1, hfc3]
  have hp4 := P4.2.2.2.1 (by rw [hfc4]; decide)
  have P5 := process_fetch_throttle_step
    (process_url (process_url (process_url (process_url s u1 o1) u2 o2) u3 o3)
      u4 o4) u5 o5 f5
  rw [h5] at P5
  have hfc5 : (process_url (process_url (process_url (process_url (process_url s u1 o1) u2 o2) u3 o3) u4 o4) u5 o5).netloc_consecutive_fetch_count.getD H 0 = 5 := by
    rw [P5.2.1 P4.1, hfc4]
  have hp5 := P5.2.2.2.2 (by rw [hfc5]; decide)
  rw [hp1] at hp2
  rw [hp2] at hp3
  rw [hp3] at hp4
  rw [hp4] at hp5
  exact ⟨hp1, hp2, hp3, hp4, hp5⟩

/-- Witness for C7 at a concrete five-step run of host A. -/
theorem c7_fetch_pause_after_five_witness :
    (netlocOf (urlA 1) = hostA ∧ netlocOf (urlA 2) = hostA ∧
      netlocOf (urlA 3) = hostA ∧ netlocOf (urlA 4) = hostA ∧
      netlocOf (urlA 5) = hostA ∧ prevNetloc baseC ≠ hostA) ∧
    (process_url (process_url (process_url (process_url (process_url baseC
        (urlA 1) (failureAt 0)) (urlA 2) (failureAt 0)) (urlA 3) (failureAt 0))
        (urlA 4) (failureAt 0)) (urlA 5) (failureAt 9)).netloc_pause_until =
      baseC.netloc_pause_until.set hostA
        ((failureAt 9).now + NETLOC_CONSECUTIVE_FETCH_PAUSE_SEC) :=
  ⟨⟨by decide, by decide, by decide, by decide, by decide, by decide⟩,
    (c7_fetch_pause_after_five baseC (urlA 1) (urlA 2) (urlA 3) (urlA 4) (urlA 5)
      (failureAt 0) (failureAt 0) (failureAt 0) (failureAt 0) (failureAt 9) hostA
      (by decide) (by decide) (by decide) (by decide) (by decide)
      (by decide) (by decide) (by decide) (by decide) (by decide)
      (by decide)).2.2.2.2⟩

theorem netloc_urlH : netlocOf urlH = hostH := by decide

theorem lastNetloc_replicate : lastNetlocOfList (List.replicate 5 urlH) = hostH := by
  decide

theorem iterTimeout_add (tau m n : Nat) (s : Crawler) :
    iterTimeout tau (m + n) s = iterTimeout tau n (iterTimeout tau m s) := by
  induction m generalizing s with
  | zero => rw [Nat.zero_add]; rfl
  | succ k ih =>
    have hstep : iterTimeout tau (k + 1 + n) s =
        iterTimeout tau (k + n) (timeoutStep tau s) := by
      have : k + 1 + n = (k + n) + 1 := by omega
      rw [this]
      rfl
    rw [hstep, ih]
    rfl

theorem save_fc (s : Crawler) (u : String) :
    (save_url_fetch_history s u).netloc_consecutive_fetch_count =
      s.netloc_consecutive_fetch_count := rfl

theorem save_pause (s : Crawler) (u : String) :
    (save_url_fetch_history s u).netloc_pause_until = s.netloc_pause_until := rfl

theorem save_replicate (s : Crawler)
    (hh : s.url_fetch_history = List.replicate 5 urlH) :
    (save_url_fetch_history s urlH).url_fetch_history = List.replicate 5 urlH := by
  unfold save_url_fetch_history
  dsimp only
  rw [hh]
  decide

/-- A non-triggering timeout step of the backoff trace. -/
theorem timeoutStep_nontrigger (tau : Nat) (s : Crawler) (c m : Nat)
    (hh : s.url_fetch_history = List.replicate 5 urlH)
    (hc : s.netloc_consecutive_timeout_count.getD hostH 0 = c)
    (hc5 : c + 1 ≠ 5)
    (hm : s.netloc_consecutive_fetch_count.getD hostH 0 = m)
    (hm5 : m + 1 ≠ 5) :
    (timeoutStep tau s).url_fetch_history = List.replicate 5 urlH ∧
    (timeoutStep tau s).netloc_consecutive_timeout_count.getD hostH 0 = c + 1 ∧
    (timeoutStep tau s).netloc_consecutive_timeout_pause_count.getD hostH 0 =
      s.netloc_consecutive_timeout_pause_count.getD hostH 0 ∧
    (timeoutStep tau s).netloc_consecutive_fetch_count.getD hostH 0 = m + 1 ∧
    (timeoutStep tau s).netloc_pause_until = s.netloc_pause_until := by
  have hE := handle_effect
    (save_url_fetch_history (initNetlocCounters s hostH) urlH) hostH tau
  have hgl : get_last_fetch_netloc
      (save_url_fetch_history (initNetlocCounters s hostH) urlH) = hostH := by
    rw [getLast_save, initCounters_prevNetloc, prevNetloc_def, hh,
      lastNetloc_replicate]
  have hfcv : (handle_netloc_consecutive_fetch
      (save_url_fetch_history (initNetlocCounters s hostH) urlH) hostH
      tau).netloc_consecutive_fetch_count.getD hostH 0 = m + 1 := by
    rw [hE.1 hgl, save_fc]
    show (initNetlocCounters s hostH).netloc_consecutive_fetch_count.getD hostH 0 + 1 = m + 1
    rw [initCounters_fc, hm]
  have hpv : (handle_netloc_consecutive_fetch
      (save_url_fetch_history (initNetlocCounters s hostH) urlH) hostH
      tau).netloc_pause_until = s.netloc_pause_until := by
    have h5 : (handle_netloc_consecutive_fetch
        (save_url_fetch_history (initNetlocCounters s hostH) urlH) hostH
        tau).netloc_consecutive_fetch_count.getD hostH 0 ≠
        NETLOC_CONSECUTIVE_FETCH_PAUSE_TRIGGER := by
      rw [hfcv]
      exact hm5
    rw [hE.2.2.1 h5, save_pause, initCounters_pause]
  have hhist : (handle_netloc_consecutive_fetch
      (save_url_fetch_history (initNetlocCounters s hostH) urlH) hostH
      tau).url_fetch_history = List.replicate 5 urlH := by
    rw [handle_history]
    exact save_replicate _ (by rw [initCounters_history, hh])
  unfold timeoutStep process_url
  dsimp only
  simp only [netloc_urlH, getLast_handle_save, initCounters_prevNetloc,
    prevNetloc_def, initCounters_history, hh, lastNetloc_replicate, if_true]
  simp only [handle_tc, save_tc]
  have hc5t : (initNetlocCounters s hostH).netloc_consecutive_timeout_count.getD
      hostH 0 + 1 ≠ NETLOC_CONSECUTIVE_TIMEOUT_PAUSE_TRIGGER := by
    rw [initCounters_tc_getD, hc]
    exact hc5
  rw [Dict.getD_set_same, if_neg hc5t]
  refine ⟨hhist, ?_, ?_, hfcv, hpv⟩
  · rw [Dict.getD_set_same, initCounters_tc_getD, hc]
  · rw [handle_tpc, save_tpc, initCounters_tpc_getD]

/-- A triggering timeout step of the backoff trace. -/
theorem timeoutStep_trigger (tau : Nat) (s : Crawler) (e m : Nat)
    (hh : s.url_fetch_history = List.replicate 5 urlH)
    (hc : s.netloc_consecutive_timeout_count.getD hostH 0 = 4)
    (he : s.netloc_consecutive_timeout_pause_count.getD hostH 0 = e)
    (hm : s.netloc_consecutive_fetch_count.getD hostH 0 = m) :
    (timeoutStep tau s).url_fetch_history = List.replicate 5 urlH ∧
    (timeoutStep tau s).netloc_consecutive_timeout_count.getD hostH 0 = 0 ∧
    (timeoutStep tau s).netloc_consecutive_timeout_pause_count.getD hostH 0 = e + 1 ∧
    (timeoutStep tau s).netloc_consecutive_fetch_count.getD hostH 0 = m + 1 ∧
    (timeoutStep tau s).netloc_pause_until hostH =
      some (tau + NETLOC_CONSECUTIVE_TIMEOUT_INITIAL_PAUSE_SEC * 2 ^ e) := by
  have hE := handle_effect
    (save_url_fetch_history (initNetlocCounters s hostH) urlH) hostH tau
  have hgl : get_last_fetch_netloc
      (save_url_fetch_history (initNetlocCounters s hostH) urlH) = hostH := by
    rw [getLast_save, initCounters_prevNetloc, prevNetloc_def, hh,
      lastNetloc_replicate]
  have hfcv : (handle_netloc_consecutive_fetch
      (save_url_fetch_history (initNetlocCounters s hostH) urlH) hostH
      tau).netloc_consecutive_fetch_count.getD hostH 0 = m + 1 := by
    rw [hE.1 hgl, save_fc]
    show (initNetlocCounters s hostH).netloc_consecutive_fetch_count.getD hostH 0 + 1 = m + 1
    rw [initCounters_fc, hm]
  have hhist : (handle_netloc_consecutive_fetch
      (save_url_fetch_history (initNetlocCounters s hostH) urlH) hostH
      tau).url_fetch_history = List.replicate 5 urlH := by
    rw [handle_history]
    exact save_replicate _ (by rw [initCounters_history, hh])
  unfold timeoutStep process_url
  dsimp only
  simp only [netloc_urlH, getLast_handle_save, initCounters_prevNetloc,
    prevNetloc_def, initCounters_history, hh, lastNetloc_replicate, if_true]
  simp only [handle_tc, save_tc]
  have hc5t : (initNetlocCounters s hostH).netloc_consecutive_timeout_count.getD
      hostH 0 + 1 = NETLOC_CONSECUTIVE_TIMEOUT_PAUSE_TRIGGER := by
    rw [initCounters_tc_getD, hc]
    decide
  rw [Dict.getD_set_same, if_pos hc5t]
  refine ⟨?_, ?_, ?_, ?_, ?_⟩
  · rw [requeue_history]
    dsimp only
    exact hhist
  · rw [requeue_tc]
    dsimp only
    rw [Dict.getD_set_same]
  · rw [requeue_tpc]
    dsimp only
    rw [Dict.getD_set_same, handle_tpc, save_tpc, initCounters_tpc_getD, he]
  · rw [requeue_fc]
    dsimp only
    exact hfcv
  · rw [requeue_pause]
    dsimp only
    rw [Dict.set_apply_same, Dict.getD_set_same, handle_tpc, save_tpc,
      initCounters_tpc_getD, he, Nat.add_sub_cancel]

/-- One full block of five consecutive timeouts: the counter climbs
    from 0 to the trigger, the escalation counter increments once, and
    the pause is set at the fifth step using the new escalation
    count. -/
theorem timeoutBlock (tau : Nat) (s : Crawler) (e m : Nat)
    (hh : s.url_fetch_history = List.replicate 5 urlH)
    (hc : s.netloc_consecutive_timeout_count.getD hostH 0 = 0)
    (he : s.netloc_consecutive_timeout_pause_count.getD hostH 0 = e)
    (hm : s.netloc_consecutive_fetch_count.getD hostH 0 = m)
    (hm5 : m % 5 = 0) :
    (iterTimeout tau 5 s).url_fetch_history = List.replicate 5 urlH ∧
    (iterTimeout tau 5 s).netloc_consecutive_timeout_count.getD hostH 0 = 0 ∧
    (iterTimeout tau 5 s).netloc_consecutive_timeout_pause_count.getD hostH 0 = e + 1 ∧
    (iterTimeout tau 5 s).netloc_consecutive_fetch_count.getD hostH 0 = m + 5 ∧
    (iterTimeout tau 5 s).netloc_pause_until hostH =
      some (tau + NETLOC_CONSECUTIVE_TIMEOUT_INITIAL_PAUSE_SEC * 2 ^ e) := by
  have S1 := timeoutStep_nontrigger tau s 0 m hh hc (by decide) hm (by omega)
  have h1c : (timeoutStep tau s).netloc_consecutive_timeout_count.getD hostH 0 = 1 := by
    rw [S1.2.1]
  have S2 := timeoutStep_nontrigger tau (timeoutStep tau s) 1 (m + 1)
    S1.1 h1c (by decide) S1.2.2.2.1 (by omega)
  have h2c : (timeoutStep tau (timeoutStep tau s)).netloc_consecutive_timeout_count.getD hostH 0 = 2 := by
    rw [S2.2.1]
  have S3 := timeoutStep_nontrigger tau (timeoutStep tau (timeoutStep tau s)) 2 (m + 2)
    S2.1 h2c (by decide) (by rw [S2.2.2.2.1]) (by omega)
  have h3c : (timeoutStep tau (timeoutStep tau (timeoutStep tau s))).netloc_consecutive_timeout_count.getD hostH 0 = 3 := by
    rw [S3.2.1]
  have S4 := timeoutStep_nontrigger tau
    (timeoutStep tau (timeoutStep tau (timeoutStep tau s))) 3 (m + 3)
    S3.1 h3c (by decide) (by rw [S3.2.2.2.1]) (by omega)
  have h4c : (timeoutStep tau (timeoutStep tau (timeoutStep tau (timeoutStep tau s)))).netloc_consecutive_timeout_count.getD hostH 0 = 4 := by
    rw [S4.2.1]
  have h4e : (timeoutStep tau (timeoutStep tau (timeoutStep tau (timeoutStep tau s)))).netloc_consecutive_timeout_pause_count.getD hostH 0 = e := by
    rw [S4.2.2.1, S3.2.2.1, S2.2.2.1, S1.2.2.1, he]
  have S5 := timeoutStep_trigger tau
    (timeoutStep tau (timeoutStep tau (timeoutStep tau (timeoutStep tau s)))) e (m + 4)
    S4.1 h4c h4e (by rw [S4.2.2.2.1])
  have hrw : iterTimeout tau 5 s =
      timeoutStep tau (timeoutStep tau (timeoutStep tau (timeoutStep tau
        (timeoutStep tau s)))) := rfl
  rw [hrw]
  exact ⟨S5.1, S5.2.1, S5.2.2.1, S5.2.2.2.1, S5.2.2.2.2⟩

/-- The backoff trace invariant: after N blocks of five consecutive
    timeouts the escalation counter is N, the consecutive-timeout
    counter is back at 0, and (once at least one trigger happened) the
    pause was set with exponent N - 1. -/
theorem c8Inv (tau : Nat) (N : Nat) :
    (iterTimeout tau (5 * N) c8start).url_fetch_history = List.replicate 5 urlH ∧
    (iterTimeout tau (5 * N) c8start).netloc_consecutive_timeout_count.getD hostH 0 = 0 ∧
    (iterTimeout tau (5 * N) c8start).netloc_consecutive_timeout_pause_count.getD hostH 0 = N ∧
    (iterTimeout tau (5 * N) c8start).netloc_consecutive_fetch_count.getD hostH 0 = 5 * N ∧
    (1 ≤ N → (iterTimeout tau (5 * N) c8start).netloc_pause_until hostH =
      some (tau + NETLOC_CONSECUTIVE_TIMEOUT_INITIAL_PAUSE_SEC * 2 ^ (N - 1))) := by
  induction N with
  | zero => exact ⟨rfl, rfl, rfl, rfl, fun h => absurd h (by decide)⟩
  | succ n ih =>
    have hsplit : 5 * (n + 1) = 5 * n + 5 := by omega
    rw [hsplit, iterTimeout_add]
    have B := timeoutBlock tau (iterTimeout tau (5 * n) c8start) n (5 * n)
      ih.1 ih.2.1 ih.2.2.1 ih.2.2.2.1 (by omega)
    refine ⟨B.1, B.2.1, B.2.2.1, ?_, ?_⟩
    · rw [B.2.2.2.1]
    · intro hge
      rw [B.2.2.2.2]
      have hsub : n + 1 - 1 = n := by omega
      rw [hsub]

/-- C8: in a run of N consecutive timeout-pause triggers for one host
    (5*N consecutive timeouts, no intervening success), the Nth
    trigger leaves the consecutive-timeout counter reset to 0, the
    escalation counter at N, and the pause set at the trigger instant
    plus initialPauseSeconds * 2^(N-1). -/
theorem c8_exponential_backoff (tau N : Nat) (hN : 1 ≤ N) :
    (iterTimeout tau (5 * N) c8start).netloc_consecutive_timeout_count.getD hostH 0 = 0 ∧
    (iterTimeout tau (5 * N) c8start).netloc_consecutive_timeout_pause_count.getD hostH 0 = N ∧
    (iterTimeout tau (5 * N) c8start).netloc_pause_until hostH =
      some (tau + NETLOC_CONSECUTIVE_TIMEOUT_INITIAL_PAUSE_SEC * 2 ^ (N - 1)) :=
  ⟨(c8Inv tau N).2.1, (c8Inv tau N).2.2.1, (c8Inv tau N).2.2.2.2 hN⟩

/-- Witness for C8 at one trigger and a concrete instant. -/
theorem c8_exponential_backoff_witness :
    1 ≤ 1 ∧
    ((iterTimeout 3 (5 * 1) c8start).netloc_consecutive_timeout_count.getD hostH 0 = 0 ∧
     (iterTimeout 3 (5 * 1) c8start).netloc_consecutive_timeout_pause_count.getD hostH 0 = 1 ∧
     (iterTimeout 3 (5 * 1) c8start).netloc_pause_until hostH =
       some (3 + NETLOC_CONSECUTIVE_TIMEOUT_INITIAL_PAUSE_SEC * 2 ^ (1 - 1))) :=
  ⟨le_refl 1, c8_exponential_backoff 3 1 (le_refl 1)⟩

/-- C3 counterexample: after twelve crawl-loop iterations the frontier
    contains duplicate entries (urlB 4, urlB 5 and urlB 6 each appear
    twice), so the claimed invariant is not preserved by every
    operation: the second requeue-on-timeout reinserted URLs that the
    first requeue had already put back into the frontier. -/
theorem c3_counterexample :
    ¬ (runSteps c3init c3oracles).frontier_q.Nodup := by
  decide

/-- Splitting view of the dequeue scan: a successful dequeue removes
    exactly one occurrence from the middle of the frontier. -/
theorem dequeueFrom_split (pause : Dict Nat) (now : Nat) :
    ∀ (l : List String) (u : String) (r : List String),
      dequeueFrom pause now l = some (u, r) →
      ∃ l1 l2, l = l1 ++ u :: l2 ∧ r = l1 ++ l2 := by
  intro l
  induction l with
  | nil =>
    intro u r h
    exact absurd h (by simp [dequeueFrom])
  | cons x xs ih =>
    intro u r h
    unfold dequeueFrom at h
    split at h
    · cases hrec : dequeueFrom pause now xs with
      | none =>
        rw [hrec] at h
        exact absurd h (by simp)
      | some p =>
        obtain ⟨v, rest'⟩ := p
        rw [hrec] at h
        simp only [Option.some.injEq, Prod.mk.injEq] at h
        obtain ⟨l1, l2, hl, hr⟩ := ih v rest' hrec
        refine ⟨x :: l1, l2, ?_, ?_⟩
        · rw [h.1] at hl
          rw [hl]
          rfl
        · rw [← h.2, hr]
          rfl
    · simp only [Option.some.injEq, Prod.mk.injEq] at h
      refine ⟨[], xs, ?_, ?_⟩
      · rw [h.1]
        rfl
      · rw [h.2]
        rfl

/-- The admission filter preserves the dedup invariant. -/
theorem filter_preserves_inv (urls : List String) (s : Crawler)
    (h : crawlerInv s) : crawlerInv (filter_and_enqueue_urls s urls) := by
  induction urls generalizing s with
  | nil => exact h
  | cons u rest ih =>
    rw [filter_and_enqueue_cons]
    by_cases hg : admitGuard s u = true
    · rw [if_pos hg]
      apply ih
      have hc := (admitGuard_iff s u).mp hg
      constructor
      · dsimp only
        rw [List.nodup_append]
        refine ⟨h.1, List.nodup_singleton u, ?_⟩
        intro x hx hxu
        rw [List.mem_singleton] at hxu
        subst hxu
        exact hc.1 hx
      · intro v hv
        dsimp only at hv
        rcases List.mem_append.mp hv with hvf | hvu
        · exact h.2 v hvf
        · rw [List.mem_singleton] at hvu
          subst hvu
          exact hc.2.1
    · rw [if_neg hg]
      exact ih s h

/-- C3 amended: admission, dequeue-plus-visit and the quota purge do
    preserve the invariant, and requeue-on-timeout preserves it only
    under the extra assumptions that the ring is duplicate-free and
    disjoint from the frontier — assumptions the code does not
    maintain, as the counterexample shows. -/
theorem c3_invariant_per_operation (s : Crawler) (h : crawlerInv s) :
    (∀ urls, crawlerInv (filter_and_enqueue_urls s urls)) ∧
    (∀ H, crawlerInv
      { s with frontier_q := s.frontier_q.filter (fun u => netlocOf u ≠ H) }) ∧
    (∀ now url rest, dequeue_url s now = some (url, rest) →
      crawlerInv { s with frontier_q := rest, visited := insert url s.visited }) ∧
    (s.url_fetch_history.Nodup →
      (∀ v ∈ s.url_fetch_history, v ∉ s.frontier_q) →
      crawlerInv (requeue_url_fetch_history s)) := by
  refine ⟨fun urls => filter_preserves_inv urls s h, ?_, ?_, ?_⟩
  · intro H
    constructor
    · exact h.1.filter _
    · intro v hv
      dsimp only at hv
      exact h.2 v (List.mem_filter.mp hv).1
  · intro now url rest hdq
    obtain ⟨l1, l2, hl, hr⟩ := dequeueFrom_split s.netloc_pause_until now
      s.frontier_q url rest hdq
    have hmid : url ∉ l1 ++ l2 ∧ (l1 ++ l2).Nodup := by
      have h0 : (l1 ++ url :: l2).Nodup := hl ▸ h.1
      exact List.nodup_cons.mp (List.nodup_middle.mp h0)
    constructor
    · dsimp only
      rw [hr]
      exact hmid.2
    · intro v hv
      dsimp only at hv
      rw [hr] at hv
      have hvf : v ∈ s.frontier_q := by
        rw [hl]
        rcases List.mem_append.mp hv with h1 | h2
        · exact List.mem_append_left _ h1
        · exact List.mem_append_right _ (List.mem_cons_of_mem _ h2)
      intro hmem
      rcases Finset.mem_insert.mp hmem with he | hvis
      · subst he
        exact hmid.1 hv
      · exact h.2 v hvf hvis
  · intro hnd hdisj
    rw [requeue_eq]
    constructor
    · dsimp only
      rw [List.nodup_append]
      refine ⟨List.nodup_reverse.mpr hnd, h.1, ?_⟩
      intro x hx
      exact hdisj x (List.mem_reverse.mp hx)
    · intro v hv
      dsimp only at hv
      rcases List.mem_append.mp hv with hvh | hvf
      · exact not_mem_foldl_erase _ _ _ (List.mem_reverse.mp hvh)
      · intro hmem
        exact h.2 v hvf (mem_of_mem_foldl_erase _ _ _ hmem)

/-- Witness for the amended C3 theorem. -/
theorem c3_invariant_per_operation_witness :
    crawlerInv { baseC with frontier_q := [urlA 1] } ∧
    crawlerInv (filter_and_enqueue_urls { baseC with frontier_q := [urlA 1] } [urlB 1]) :=
  ⟨by decide,
    (c3_invariant_per_operation { baseC with frontier_q := [urlA 1] } (by decide)).1 [urlB 1]⟩

/-! ## Claim C6: the per-host quota -/

/-- Any URL present after admission was either already in the frontier
    or passed the visited and quota checks against the pre-call
    state. -/
theorem mem_filter_and_enqueue (urls : List String) (s : Crawler) (v : String)
    (hv : v ∈ (filter_and_enqueue_urls s urls).frontier_q) :
    v ∈ s.frontier_q ∨
      (v ∉ s.visited ∧
        s.netloc_page_count.getD (netlocOf v) 0 < s.NETLOC_PAGE_LIMIT) := by
  induction urls generalizing s with
  | nil => exact Or.inl hv
  | cons u rest ih =>
    rw [filter_and_enqueue_cons] at hv
    by_cases hg : admitGuard s u = true
    · rw [if_pos hg] at hv
      rcases ih _ hv with hmem | hquota
      · dsimp only at hmem
        rcases List.mem_append.mp hmem with h1 | h2
        · exact Or.inl h1
        · rw [List.mem_singleton] at h2
          subst h2
          have hc := (admitGuard_iff s v).mp hg
          exact Or.inr ⟨hc.2.1, hc.2.2.2.2.2⟩
      · exact Or.inr hquota
    · rw [if_neg hg] at hv
      exact ih s hv

/-- C6 counterexample: after nine crawl-loop iterations host B's
    stored-page count is 2 while the configured per-host quota is 1:
    the requeue-on-timeout path resurrected a purged B URL, it was
    dequeued again after the quota had been reached, and its success
    pushed the count past the quota. -/
theorem c6_counterexample :
    (runSteps c6init c6oracles).NETLOC_PAGE_LIMIT <
      (runSteps c6init c6oracles).netloc_page_count.getD hostB 0 ∧
    (runSteps c6init c6oracles).NETLOC_PAGE_LIMIT = 1 := by
  decide

/-- C6 amended: when a success brings a host exactly to its quota,
    the post-state frontier holds no URL of that host (the purge
    removes the old ones and the admission filter rejects new ones),
    and the host's count equals the quota; moreover admission never
    adds a URL whose host is at or past the quota.  The full claim
    fails because the requeue-on-timeout path can still reinsert a
    purged host's URLs, as the counterexample run shows. -/
theorem c6_quota_purge_and_admission :
    (∀ (s : Crawler) (url : String) (o : StepOracle) (links : List String),
      o.fetch = FetchOutcome.success links →
      s.netloc_page_count.getD (netlocOf url) 0 + 1 = s.NETLOC_PAGE_LIMIT →
      (∀ v ∈ (process_url s url o).frontier_q, netlocOf v ≠ netlocOf url) ∧
      (process_url s url o).netloc_page_count.getD (netlocOf url) 0 =
        s.NETLOC_PAGE_LIMIT) ∧
    (∀ (s : Crawler) (urls : List String) (v : String),
      s.NETLOC_PAGE_LIMIT ≤ s.netloc_page_count.getD (netlocOf v) 0 →
      v ∈ (filter_and_enqueue_urls s urls).frontier_q → v ∈ s.frontier_q) := by
  constructor
  · intro s url o links ho hq
    obtain ⟨now, robots, fetch⟩ := o
    simp only at ho
    subst ho
    unfold process_url
    dsimp only
    simp only [handle_page, save_page, handle_limit, save_limit,
      initCounters_limit, Dict.getD_set_same, initCounters_page_getD]
    rw [if_pos hq]
    constructor
    · intro v hv
      rcases mem_filter_and_enqueue links _ v hv with hmem | hq2
      · dsimp only at hmem
        have hpred := (List.mem_filter.mp hmem).2
        intro he
        rw [he] at hpred
        simp at hpred
      · intro he
        have hlt := hq2.2
        dsimp only at hlt
        rw [he] at hlt
        simp only [handle_limit, save_limit, initCounters_limit,
          Dict.getD_set_same, handle_page, save_page,
          initCounters_page_getD, hq] at hlt
        omega
    · rw [filter_page_count]
      dsimp only
      rw [Dict.getD_set_same]
      exact hq
  · intro s urls v hge hv
    rcases mem_filter_and_enqueue urls s v hv with hmem | hq2
    · exact hmem
    · exact absurd hq2.2 (by omega)

/-- Witness for the amended C6 theorem: one success that exactly
    reaches a quota of 1 purges the host from the frontier. -/
theorem c6_quota_purge_and_admission_witness :
    ((successAt 0).fetch = FetchOutcome.success [] ∧
      c6init.netloc_page_count.getD (netlocOf (urlB 2)) 0 + 1 =
        c6init.NETLOC_PAGE_LIMIT) ∧
    (∀ v ∈ (process_url c6init (urlB 2) (successAt 0)).frontier_q,
      netlocOf v ≠ netlocOf (urlB 2)) :=
  ⟨⟨rfl, by decide⟩,
    (c6_quota_purge_and_admission.1 c6init (urlB 2) (successAt 0) [] rfl
      (by decide)).1⟩
